import Mathlib

/-!
Verification development for the browser_wellbeing extension background logic.

The repository carries four revisions of the background script:
* `src/unnamed/part_000` — the most evolved revision: a single `activeTabInfo`
  object (id, url, title, startTime), window-focus handling, and a scheduler
  tick that deletes only successfully synced ledger keys.
* `src/extension/background.js` — the original revision: two module-level
  variables `lastTabId` / `startTime`, a commit that re-queries the tab by id,
  and a tick that clears the whole ledger after dispatching.
* `src/unnamed/part_001` — two intermediate revisions; the second one is
  embedded here as far as its tab-removed handler is concerned.

Machine integers of JavaScript are modelled as `Int`/`Nat`; the observable
operations on a URL string (`startsWith("chrome://")`, `new URL(u).hostname`
possibly throwing) are modelled as fields of a `Url` structure; fallible
environment interactions (tab lookup, storage round trips, fetch) are passed
in as explicit oracle data, so every definition is executable.
-/

namespace BW

/-- Observable content of a URL string: whether it starts with the
browser-internal `chrome://` scheme, and the result of
`new URL(raw).hostname` (`none` when the URL constructor throws). -/
structure Url where
  isChromeInternal : Bool
  hostname : Option String
deriving DecidableEq

/-- Snapshot of a browsing context as returned by `chrome.tabs.get`:
`url` is `none` when `tab.url` is absent or empty (JS falsy),
`title` is `tab.title` (possibly undefined). -/
structure Tab where
  url : Option Url
  title : Option String
deriving DecidableEq

/-- One `websiteTime[url]` record: `{ title, totalTime }`. -/
structure Entry where
  title : Option String
  totalTime : Int
deriving DecidableEq

/-- The persisted `websiteTime` object, as an insertion-ordered
association list (JS objects preserve string-key insertion order). -/
abbrev Ledger := List (String × Entry)

/-- Property read `websiteTime[k]`: first binding of `k`, if any. -/
def getKey : Ledger → String → Option Entry
  | [], _ => none
  | (k0, v0) :: rest, k => if k0 = k then some v0 else getKey rest k

/-- Property write `websiteTime[k] = v`: replaces the binding in place if the
key exists, otherwise appends it at the end. -/
def setKey : Ledger → String → Entry → Ledger
  | [], k, v => [(k, v)]
  | (k0, v0) :: rest, k, v =>
      if k0 = k then (k, v) :: rest else (k0, v0) :: setKey rest k v

/-- `Math.round((endMs - startMs) / 1000)` on an integer number of
milliseconds: `Math.round(x)` is `⌊x + 1/2⌋`, so for `d` ms the result is
`⌊(2 d + 1000) / 2000⌋` (floor division of integers). -/
def msToSec (d : Int) : Int := Int.fdiv (2 * d + 1000) 2000

/-- JS truthiness of `storage.token` (undefined or a string):
falsy iff absent or the empty string. -/
def truthyToken : Option String → Bool
  | none => false
  | some t => t != ""

/-- Instrumentation record for one successful ledger commit: the site key and
title written, the committed duration in seconds, and the millisecond
interval `[startMs, endMs]` it covers. -/
structure Commit where
  site : String
  title : Option String
  duration : Int
  startMs : Nat
  endMs : Nat
deriving DecidableEq

/-! ## The `part_000` revision -/

/-- The `activeTabInfo` object of `part_000`: four independently nullable
fields, exactly as in the source. -/
structure SlotP0 where
  id : Option Int
  url : Option Url
  title : Option String
  startTime : Option Nat
deriving DecidableEq

/-- `{ id: null, url: null, title: null, startTime: null }`. -/
def emptySlot : SlotP0 := ⟨none, none, none, none⟩

/-- In-memory slot plus the persisted `websiteTime` ledger. -/
structure StateP0 where
  slot : SlotP0
  ledger : Ledger
deriving DecidableEq

/-- Process start: cleared slot, empty ledger. -/
def initP0 : StateP0 := ⟨emptySlot, []⟩

/-- The ledger update of `part_000`'s `saveTimeForLastTab`: create the entry
(`{ title, totalTime: 0 }`) if absent, then `totalTime += duration`.  Note the
title is written only at creation; an existing entry keeps its old title. -/
def commitP0 (L : Ledger) (site : String) (title : Option String) (d : Int) : Ledger :=
  match getKey L site with
  | none => setKey L site ⟨title, 0 + d⟩
  | some e => setKey L site ⟨e.title, e.totalTime + d⟩

/-- `part_000`'s `saveTimeForLastTab`: guard on JS-truthy `activeTabInfo.id`
and `activeTabInfo.startTime` (early return leaves everything untouched);
compute `duration = Math.round((now - startTime)/1000)`; when positive, parse
the cached URL (a throw is caught), read-modify-write the ledger (a rejected
storage round trip is caught, modelled by `storageOk = false`); finally reset
the slot unconditionally.  Returns the new slot, the new ledger, and the
commit performed, if any. -/
def savePO (slot : SlotP0) (L : Ledger) (now : Nat) (storageOk : Bool) :
    SlotP0 × Ledger × Option Commit :=
  match slot.id, slot.startTime with
  | some i, some s =>
      if i = 0 ∨ s = 0 then (slot, L, none)
      else
        let d := msToSec ((now : Int) - (s : Int))
        if d ≤ 0 then (emptySlot, L, none)
        else
          match slot.url with
          | none => (emptySlot, L, none)
          | some u =>
              match u.hostname with
              | none => (emptySlot, L, none)
              | some h =>
                  if storageOk then
                    (emptySlot, commitP0 L h slot.title d, some ⟨h, slot.title, d, s, now⟩)
                  else (emptySlot, L, none)
  | _, _ => (slot, L, none)

/-- `part_000`'s `processTabChange`: bail out on `chrome.tabs.TAB_ID_NONE`
(-1); save the previous slot; query the new tab (`lookup`, `none` when
`chrome.tabs.get` throws); start timing it only when its URL is present and
not browser-internal. -/
def processTabChangeP0 (st : StateP0) (tabId : Int) (lookup : Option Tab)
    (now : Nat) (storageOk : Bool) : StateP0 × Option Commit :=
  if tabId = -1 then (st, none)
  else
    let r := savePO st.slot st.ledger now storageOk
    match lookup with
    | none => (⟨r.1, r.2.1⟩, r.2.2)
    | some tab =>
        match tab.url with
        | none => (⟨r.1, r.2.1⟩, r.2.2)
        | some u =>
            if u.isChromeInternal then (⟨r.1, r.2.1⟩, r.2.2)
            else (⟨⟨some tabId, some u, tab.title, some now⟩, r.2.1⟩, r.2.2)

/-- `part_000`'s `chrome.tabs.onRemoved` listener: save only when the removed
id strictly equals `activeTabInfo.id`. -/
def removedP0 (st : StateP0) (tabId : Int) (now : Nat) (storageOk : Bool) :
    StateP0 × Option Commit :=
  if st.slot.id = some tabId then
    let r := savePO st.slot st.ledger now storageOk
    (⟨r.1, r.2.1⟩, r.2.2)
  else (st, none)

/-- `part_000`'s focus-lost branch of `chrome.windows.onFocusChanged`:
an unconditional save. -/
def focusLostP0 (st : StateP0) (now : Nat) (storageOk : Bool) :
    StateP0 × Option Commit :=
  let r := savePO st.slot st.ledger now storageOk
  (⟨r.1, r.2.1⟩, r.2.2)

/-- `part_000`'s `sendDataAlarm` listener: force a save, read token and
ledger; without a truthy token (or with an empty ledger) stop with zero
requests; otherwise dispatch one request per entry and delete exactly the
keys whose dispatch succeeded (`outcome`).  Returns the state, the forced
commit if any, and the number of network requests issued. -/
def tickP0 (st : StateP0) (now : Nat) (storageOk : Bool) (token : Option String)
    (outcome : String → Bool) : StateP0 × Option Commit × Nat :=
  let r := savePO st.slot st.ledger now storageOk
  let L1 := r.2.1
  if truthyToken token = false ∨ L1.isEmpty then (⟨r.1, L1⟩, r.2.2, 0)
  else (⟨r.1, L1.filter (fun kv => !(outcome kv.1))⟩, r.2.2, L1.length)

/-- One browser event delivered to the `part_000` listeners, carrying the
environment data the handler consumes: the current `Date.now()`, the result
of any tab lookup, the storage round-trip outcome, and for ticks the stored
token and the per-site dispatch outcomes. -/
inductive EventP0 where
  | activated (tabId : Int) (lookup : Option Tab) (now : Nat) (storageOk : Bool)
  | updated (tabId : Int) (isActive statusComplete : Bool) (lookup : Option Tab)
      (now : Nat) (storageOk : Bool)
  | removed (tabId : Int) (now : Nat) (storageOk : Bool)
  | focusLost (now : Nat) (storageOk : Bool)
  | focusGained (queried : Option Int) (lookup : Option Tab) (now : Nat) (storageOk : Bool)
  | tick (now : Nat) (storageOk : Bool) (token : Option String) (outcome : String → Bool)

/-- The `Date.now()` timestamp at which an event is handled. -/
def eventTime : EventP0 → Nat
  | .activated _ _ n _ => n
  | .updated _ _ _ _ n _ => n
  | .removed _ n _ => n
  | .focusLost n _ => n
  | .focusGained _ _ n _ => n
  | .tick n _ _ _ => n

/-- Dispatch of one event through the `part_000` listeners
(`onActivated`, `onUpdated` guarded by `tab.active && status === "complete"`,
`onRemoved`, `onFocusChanged`, the alarm listener). -/
def stepP0 (st : StateP0) : EventP0 → StateP0 × Option Commit
  | .activated tid lk n ok => processTabChangeP0 st tid lk n ok
  | .updated tid act comp lk n ok =>
      if act && comp then processTabChangeP0 st tid lk n ok else (st, none)
  | .removed tid n ok => removedP0 st tid n ok
  | .focusLost n ok => focusLostP0 st n ok
  | .focusGained q lk n ok =>
      match q with
      | some tid => processTabChangeP0 st tid lk n ok
      | none => (st, none)
  | .tick n ok token outcome =>
      let r := tickP0 st n ok token outcome
      (r.1, r.2.1)

/-- Run a list of events from a state, accumulating the commits performed. -/
def runP0Aux : StateP0 → List Commit → List EventP0 → StateP0 × List Commit
  | st, acc, [] => (st, acc)
  | st, acc, e :: es =>
      let r := stepP0 st e
      runP0Aux r.1 (acc ++ r.2.toList) es

/-- Run a list of events from the initial `part_000` state. -/
def runP0 (es : List EventP0) : StateP0 × List Commit := runP0Aux initP0 [] es

/-- Event timestamps are nondecreasing, starting from a lower bound. -/
def timesMono : Nat → List EventP0 → Prop
  | _, [] => True
  | t, e :: es => t ≤ eventTime e ∧ timesMono (eventTime e) es

/-! ## The `src/extension/background.js` revision -/

/-- Module state of `background.js`: `lastTabId` and `startTime` are two
independent nullable variables, plus the persisted ledger. -/
structure StateBG where
  lastTabId : Option Int
  startTime : Option Nat
  ledger : Ledger
deriving DecidableEq

/-- Process start for `background.js`. -/
def initBG : StateBG := ⟨none, none, []⟩

/-- The ledger update of `background.js`'s `saveTimeForLastTab`:
`websiteTime[url] = { title, totalTime: (old ? old.totalTime : 0) + duration }` —
the title is overwritten with the latest observed one. -/
def commitBG (L : Ledger) (site : String) (title : Option String) (d : Int) : Ledger :=
  setKey L site ⟨title, (match getKey L site with | some e => e.totalTime | none => 0) + d⟩

/-- Ledger effect of `background.js`'s `saveTimeForLastTab`, as a function of
the two timing variables: guard on JS-truthy `lastTabId` and `startTime`;
compute the rounded duration and stop when not positive; re-query the tab by
`lastTabId` (`lookup`, `none` when the tab no longer exists, in which case
`chrome.tabs.get` resolves with `undefined`); commit only for a present,
non-`chrome://` URL whose hostname parses, when the storage round trip
succeeds. -/
def saveBGLedger (tid : Option Int) (stt : Option Nat) (L : Ledger) (now : Nat)
    (lookup : Option Tab) (storageOk : Bool) : Ledger × Option Commit :=
  match tid, stt with
  | some i, some s =>
      if i = 0 ∨ s = 0 then (L, none)
      else
        let d := msToSec ((now : Int) - (s : Int))
        if d ≤ 0 then (L, none)
        else
          match lookup with
          | none => (L, none)
          | some tab =>
              match tab.url with
              | none => (L, none)
              | some u =>
                  if u.isChromeInternal then (L, none)
                  else
                    match u.hostname with
                    | none => (L, none)
                    | some h =>
                        if storageOk then
                          (commitBG L h tab.title d, some ⟨h, tab.title, d, s, now⟩)
                        else (L, none)
  | _, _ => (L, none)

/-- `background.js`'s `saveTimeForLastTab`: applies `saveBGLedger` to the
persisted ledger.  The function body never assigns `lastTabId` or
`startTime`, which the shape of this definition makes structural. -/
def saveBG (st : StateBG) (now : Nat) (lookup : Option Tab) (storageOk : Bool) :
    StateBG × Option Commit :=
  let r := saveBGLedger st.lastTabId st.startTime st.ledger now lookup storageOk
  ({ st with ledger := r.1 }, r.2)

/-- `background.js`'s `handleTabChange`: save the previous tab when both
variables are non-null and the id changed, then unconditionally start timing
the new tab — no URL inspection, no `TAB_ID_NONE` guard. -/
def handleTabChangeBG (st : StateBG) (tabId : Int) (lookup : Option Tab)
    (now : Nat) (storageOk : Bool) : StateBG × Option Commit :=
  let r :=
    if st.lastTabId ≠ none ∧ st.startTime ≠ none ∧ st.lastTabId ≠ some tabId then
      saveBG st now lookup storageOk
    else (st, none)
  ({ r.1 with lastTabId := some tabId, startTime := some now }, r.2)

/-- `background.js`'s `handleTabRemoved`: guarded by
`tabId === lastTabId`; saves, then nulls both variables. -/
def handleTabRemovedBG (st : StateBG) (tabId : Int) (lookup : Option Tab)
    (now : Nat) (storageOk : Bool) : StateBG × Option Commit :=
  if st.lastTabId = some tabId then
    let r := saveBG st now lookup storageOk
    ({ r.1 with lastTabId := none, startTime := none }, r.2)
  else (st, none)

/-- `background.js`'s `sendDataAlarm` listener: force a save (which does NOT
clear the timing variables), then with a truthy token dispatch one request
per entry with positive `totalTime` and set `websiteTime` to `{}`
unconditionally — per-site outcomes are never consulted, so `outcome` is
unused, exactly as the code discards each response.  Returns state, forced
commit, request count. -/
def tickBG (st : StateBG) (now : Nat) (lookup : Option Tab) (storageOk : Bool)
    (token : Option String) (outcome : String → Bool) : StateBG × Option Commit × Nat :=
  let r := saveBG st now lookup storageOk
  if truthyToken token = false then (r.1, r.2, 0)
  else
    ({ r.1 with ledger := [] }, r.2,
     (r.1.ledger.filter (fun kv => 0 < kv.2.totalTime)).length)

/-- One browser event delivered to the `background.js` listeners. -/
inductive EventBG where
  | activated (tabId : Int) (lookup : Option Tab) (now : Nat) (storageOk : Bool)
  | updated (urlChanged : Bool) (tabId : Int) (lookup : Option Tab) (now : Nat) (storageOk : Bool)
  | removed (tabId : Int) (lookup : Option Tab) (now : Nat) (storageOk : Bool)
  | tick (now : Nat) (lookup : Option Tab) (storageOk : Bool) (token : Option String)
      (outcome : String → Bool)

/-- Dispatch of one event through the `background.js` listeners
(`onUpdated` fires `handleTabChange` only when `changeInfo.url` is set). -/
def stepBG (st : StateBG) : EventBG → StateBG × Option Commit
  | .activated tid lk n ok => handleTabChangeBG st tid lk n ok
  | .updated ch tid lk n ok =>
      if ch then handleTabChangeBG st tid lk n ok else (st, none)
  | .removed tid lk n ok => handleTabRemovedBG st tid lk n ok
  | .tick n lk ok token outcome =>
      let r := tickBG st n lk ok token outcome
      (r.1, r.2.1)

/-- Run a list of events from a state, accumulating commits. -/
def runBGAux : StateBG → List Commit → List EventBG → StateBG × List Commit
  | st, acc, [] => (st, acc)
  | st, acc, e :: es =>
      let r := stepBG st e
      runBGAux r.1 (acc ++ r.2.toList) es

/-- Run a list of events from the initial `background.js` state. -/
def runBG (es : List EventBG) : StateBG × List Commit := runBGAux initBG [] es

/-! ## The second `src/unnamed/part_001` revision (tab-removed path) -/

/-- Module state of the second `part_001` revision: same shape as
`background.js`. -/
structure StateP1 where
  lastTabId : Option Int
  startTime : Option Nat
  ledger : Ledger
deriving DecidableEq

/-- Ledger effect of the second `part_001` revision's
`saveTimeForLastTab(tabId)`: guards on JS-truthy `tabId` argument and global
`startTime`, then queries the PASSED `tabId` (rejecting on
`chrome.runtime.lastError`, silently caught) and commits under that tab's
hostname with the latest title. -/
def saveP1Ledger (tabIdArg : Int) (stt : Option Nat) (L : Ledger) (now : Nat)
    (lookup : Option Tab) (storageOk : Bool) : Ledger :=
  match stt with
  | none => L
  | some s =>
      if tabIdArg = 0 ∨ s = 0 then L
      else
        let d := msToSec ((now : Int) - (s : Int))
        if d ≤ 0 then L
        else
          match lookup with
          | none => L
          | some tab =>
              match tab.url with
              | none => L
              | some u =>
                  if u.isChromeInternal then L
                  else
                    match u.hostname with
                    | none => L
                    | some h =>
                        if storageOk then commitBG L h tab.title d
                        else L

/-- The second `part_001` revision's `saveTimeForLastTab(tabId)`: applies
`saveP1Ledger` to the persisted ledger; the timing variables are never
assigned by this function. -/
def saveP1 (st : StateP1) (tabIdArg : Int) (now : Nat) (lookup : Option Tab)
    (storageOk : Bool) : StateP1 :=
  { st with ledger := saveP1Ledger tabIdArg st.startTime st.ledger now lookup storageOk }

/-- The second `part_001` revision's `chrome.tabs.onRemoved` listener:
`await saveTimeForLastTab(tabId)` UNCONDITIONALLY with the removed tab's id,
then null the variables only when the removed id was the timed one. -/
def onRemovedP1 (st : StateP1) (tabId : Int) (now : Nat) (lookup : Option Tab)
    (storageOk : Bool) : StateP1 :=
  let st1 := saveP1 st tabId now lookup storageOk
  if st1.lastTabId = some tabId then { st1 with lastTabId := none, startTime := none }
  else st1

/-! ## The auth gateway (`loginUser`, identical across revisions) -/

/-- The persisted session: `{ token, username }`. -/
structure Session where
  token : Option String
  username : Option String
deriving DecidableEq

/-- Parsed JSON body of a `/login` response: `data.token` and `data.error`,
each possibly absent. -/
structure LoginBody where
  token : Option String
  error : Option String
deriving DecidableEq

/-- Outcome of the `fetch` + `response.json()` pair inside `loginUser`:
either the fetch rejected (transport error), or a response arrived with
status-`ok` flag and a body (`none` when `response.json()` threw). -/
inductive FetchOutcome where
  | netError
  | response (ok : Bool) (body : Option LoginBody)
deriving DecidableEq

/-- The result object `loginUser` returns to the message listener. -/
inductive LoginResult where
  | success
  | failure (msg : Option String)
deriving DecidableEq

/-- `loginUser` (part_000 lines 234-254): parse the body, and on a 2xx
response write `{ token: data.token, username }` to storage and return
`{ success: true }`; on a non-2xx response return `{ error: data.error }`;
any fetch rejection or JSON parse throw is caught and normalized to
`{ error: "Could not connect to the server." }`.  The session is returned
unchanged on every non-success path. -/
def loginUser (sess : Session) (username password : String) (fr : FetchOutcome) :
    Session × LoginResult :=
  match fr with
  | .netError => (sess, .failure (some "Could not connect to the server."))
  | .response _ none => (sess, .failure (some "Could not connect to the server."))
  | .response ok (some body) =>
      if ok then ({ token := body.token, username := some username }, .success)
      else (sess, .failure body.error)

/-! ## Specification predicates and example data -/

/-- Well-formedness of one instrumented commit at bookkeeping time `t`: it
covers a forward interval, its duration is exactly the rounded interval
length, it is positive (non-positive durations are discarded by the code),
and it ended no later than `t`. -/
def commitOK (t : Nat) (c : Commit) : Prop :=
  c.startMs ≤ c.endMs ∧ c.duration = msToSec ((c.endMs : Int) - (c.startMs : Int)) ∧
    0 < c.duration ∧ c.endMs ≤ t

/-- Run invariant for the `part_000` tracker: the commits performed so far
cover pairwise disjoint intervals, each is well formed and already over, and
an open slot started no earlier than every finished commit and no later than
the current time. -/
def InvP0 (slot : SlotP0) (cs : List Commit) (t : Nat) : Prop :=
  List.Pairwise (fun a b => a.endMs ≤ b.startMs) cs ∧
  (∀ c ∈ cs, commitOK t c) ∧
  (∀ s, slot.startTime = some s → s ≤ t ∧ ∀ c ∈ cs, c.endMs ≤ s)

/-- A sample ordinary (non-internal) tab. -/
def tabEx : Tab := ⟨some ⟨false, some "example.com"⟩, some "Ex"⟩

/-- A sample open `part_000` slot: tab 1 on example.com since second 1. -/
def slotEx : SlotP0 := ⟨some 1, some ⟨false, some "example.com"⟩, some "T", some 1000⟩

/-- A two-entry ledger `{A: 10s, B: 20s}` as in the partial-sync example. -/
def exLedger : Ledger := [("A", ⟨some "a", 10⟩), ("B", ⟨some "b", 20⟩)]

/-- A `background.js` trace: activate tab 1 at second 1, let the alarm fire
at second 11 (committing 10 s but leaving `startTime` in place), switch to
tab 2 at second 21 (committing another 20 s measured from the stale start). -/
def exEventsBG : List EventBG :=
  [ .activated 1 none 1000 true,
    .tick 11000 (some tabEx) true (some "tok") (fun _ => true),
    .activated 2 (some tabEx) 21000 true ]

/-- A `part_000` trace: activate tab 1 at second 1, close it at second 61. -/
def wEventsP0 : List EventP0 :=
  [ .activated 1 (some tabEx) 1000 true, .removed 1 61000 true ]

/-! ## Helper lemmas -/

/-- Reading a key just written returns the written entry. -/
theorem getKey_setKey_self (L : Ledger) (k : String) (v : Entry) :
    getKey (setKey L k v) k = some v := by
  induction L with
  | nil => simp [getKey, setKey]
  | cons kv rest ih =>
      obtain ⟨k0, v0⟩ := kv
      by_cases hk : k0 = k
      · simp [getKey, setKey, hk]
      · simp [getKey, setKey, hk, ih]

/-- Reading a key from a key-filtered ledger: a pruned key reads as absent,
any other key reads as before. -/
theorem getKey_filter (L : Ledger) (p : String → Bool) (k : String) :
    getKey (L.filter (fun kv => !(p kv.1))) k = if p k then none else getKey L k := by
  induction L with
  | nil => cases p k <;> simp [getKey]
  | cons kv rest ih =>
      obtain ⟨k0, v0⟩ := kv
      by_cases hk : k0 = k
      · subst hk
        cases hp : p k0 <;> simp [List.filter_cons, hp, getKey, ih]
      · cases hp : p k0 <;> simp [List.filter_cons, hp, getKey, hk, ih]

/-- `part_000` save on an empty slot is a no-op. -/
theorem savePO_empty (L : Ledger) (now : Nat) (ok : Bool) :
    savePO emptySlot L now ok = (emptySlot, L, none) := rfl

/-- Once past its truthiness guard, `part_000`'s save resets the slot on
every path: non-positive duration, URL parse failure, storage failure and
successful commit alike. -/
theorem savePO_clears (i : Int) (url : Option Url) (title : Option String) (s : Nat)
    (L : Ledger) (now : Nat) (ok : Bool) (hi : i ≠ 0) (hs : s ≠ 0) :
    (savePO ⟨some i, url, title, some s⟩ L now ok).1 = emptySlot := by
  show (savePO ⟨some i, url, title, some s⟩ L now ok).1 = emptySlot
  unfold savePO
  simp only [if_neg (by simp [hi, hs] : ¬(i = 0 ∨ s = 0))]
  split
  · rfl
  · rcases url with _ | u
    · rfl
    · rcases hu : u.hostname with _ | h
      · simp [hu]
      · simp only [hu]
        split <;> rfl

/-- The slot returned by `part_000`'s save is either the input slot
(truthiness guard failed) or the empty slot. -/
theorem savePO_slot_cases (slot : SlotP0) (L : Ledger) (now : Nat) (ok : Bool) :
    (savePO slot L now ok).1 = slot ∨ (savePO slot L now ok).1 = emptySlot := by
  obtain ⟨id, url, title, stt⟩ := slot
  rcases id with _ | i
  · exact Or.inl rfl
  rcases stt with _ | s
  · exact Or.inl rfl
  by_cases hi : i = 0 ∨ s = 0
  · left
    unfold savePO
    simp [hi]
  · right
    push_neg at hi
    exact savePO_clears i url title s L now ok hi.1 hi.2

/-- A slot that is either empty or truthily non-empty comes back empty from
`part_000`'s save. -/
theorem savePO_resets (slot : SlotP0) (L : Ledger) (now : Nat) (ok : Bool)
    (hwf : slot = emptySlot ∨
      ∃ i s, slot.id = some i ∧ i ≠ 0 ∧ slot.startTime = some s ∧ s ≠ 0) :
    (savePO slot L now ok).1 = emptySlot := by
  rcases hwf with rfl | ⟨i, s, hi, hi0, hs, hs0⟩
  · rfl
  · obtain ⟨id, url, title, stt⟩ := slot
    simp only at hi hs
    subst hi
    subst hs
    exact savePO_clears i url title s L now ok hi0 hs0

/-- Every commit produced by `part_000`'s save covers exactly the interval
from the slot's start to `now`, carries the rounded positive duration, and
leaves the slot empty. -/
theorem savePO_commit_spec (slot : SlotP0) (L : Ledger) (now : Nat) (ok : Bool) (c : Commit)
    (h : (savePO slot L now ok).2.2 = some c) :
    (savePO slot L now ok).1 = emptySlot ∧
      ∃ s, slot.startTime = some s ∧ c.startMs = s ∧ c.endMs = now ∧
        c.duration = msToSec ((now : Int) - (s : Int)) ∧ 0 < c.duration := by
  obtain ⟨id, url, title, stt⟩ := slot
  rcases id with _ | i
  · exact absurd h (by simp [savePO])
  rcases stt with _ | s
  · exact absurd h (by simp [savePO])
  by_cases hg : i = 0 ∨ s = 0
  · exact absurd h (by simp [savePO, hg])
  by_cases hd : msToSec ((now : Int) - (s : Int)) ≤ 0
  · exact absurd h (by simp [savePO, hg, hd])
  rcases url with _ | u
  · exact absurd h (by simp [savePO, hg, hd])
  rcases hu : u.hostname with _ | hst
  · exact absurd h (by simp [savePO, hg, hd, hu])
  by_cases hok : ok = true
  · subst hok
    have hred : savePO ⟨some i, some u, title, some s⟩ L now true
        = (emptySlot, commitP0 L hst title (msToSec ((now : Int) - (s : Int))),
           some ⟨hst, title, msToSec ((now : Int) - (s : Int)), s, now⟩) := by
      simp [savePO, hg, hd, hu]
    rw [hred] at h ⊢
    obtain rfl : (⟨hst, title, msToSec ((now : Int) - (s : Int)), s, now⟩ : Commit) = c :=
      Option.some.inj h
    exact ⟨rfl, s, rfl, rfl, rfl, rfl,
      (by omega : 0 < msToSec ((now : Int) - (s : Int)))⟩
  · have hf : ok = false := by simpa using hok
    subst hf
    exact absurd h (by simp [savePO, hg, hd, hu])

/-- Commit well-formedness is monotone in the bookkeeping time. -/
theorem commitOK_mono {t t2 : Nat} {c : Commit} (h : t ≤ t2) (hc : commitOK t c) :
    commitOK t2 c :=
  ⟨hc.1, hc.2.1, hc.2.2.1, le_trans hc.2.2.2 h⟩

/-- The run invariant is monotone in the bookkeeping time. -/
theorem InvP0_mono {slot : SlotP0} {cs : List Commit} {t t2 : Nat} (h : t ≤ t2)
    (hi : InvP0 slot cs t) : InvP0 slot cs t2 :=
  ⟨hi.1, fun c hc => commitOK_mono h (hi.2.1 c hc), fun s hs =>
    ⟨le_trans ((hi.2.2 s hs).1) h, (hi.2.2 s hs).2⟩⟩

/-- A state whose slot carries no start timestamp satisfies the slot clause
vacuously. -/
theorem InvP0_of_empty {cs : List Commit} {t : Nat}
    (hPW : List.Pairwise (fun a b => a.endMs ≤ b.startMs) cs)
    (hOK : ∀ c ∈ cs, commitOK t c) : InvP0 emptySlot cs t := by
  refine ⟨hPW, hOK, ?_⟩
  intro s hs
  simp [emptySlot] at hs

/-- `part_000`'s save preserves the run invariant, advancing the bookkeeping
time to the save's `now`. -/
theorem savePO_inv (slot : SlotP0) (L : Ledger) (cs : List Commit) (t now : Nat) (ok : Bool)
    (hInv : InvP0 slot cs t) (ht : t ≤ now) :
    InvP0 (savePO slot L now ok).1 (cs ++ ((savePO slot L now ok).2.2).toList) now := by
  rcases hc : (savePO slot L now ok).2.2 with _ | c
  · simp only [hc, Option.toList, List.append_nil]
    rcases savePO_slot_cases slot L now ok with hsl | hsl <;> rw [hsl]
    · exact InvP0_mono ht hInv
    · exact InvP0_of_empty (InvP0_mono ht hInv).1 (InvP0_mono ht hInv).2.1
  · obtain ⟨hempty, s, hstt, hcs, hce, hcd, hcpos⟩ := savePO_commit_spec slot L now ok c hc
    simp only [hc, Option.toList, hempty]
    obtain ⟨hsle, hends⟩ := hInv.2.2 s hstt
    apply InvP0_of_empty
    · rw [List.pairwise_append]
      refine ⟨hInv.1, by simp, ?_⟩
      intro a ha b hb
      rw [List.mem_singleton] at hb
      subst hb
      rw [hcs]
      exact hends a ha
    · intro x hx
      rcases List.mem_append.mp hx with hx | hx
      · exact commitOK_mono ht (hInv.2.1 x hx)
      · rw [List.mem_singleton] at hx
        subst hx
        refine ⟨?_, ?_, hcpos, ?_⟩
        · rw [hcs, hce]
          exact le_trans hsle ht
        · rw [hcd, hcs, hce]
        · rw [hce]

/-- A slot freshly started at the current bookkeeping time satisfies the
invariant, given that all finished commits ended by then. -/
theorem InvP0_fresh {cs : List Commit} {t : Nat} (slot2 : SlotP0)
    (h2 : slot2.startTime = some t)
    (hPW : List.Pairwise (fun a b => a.endMs ≤ b.startMs) cs)
    (hOK : ∀ c ∈ cs, commitOK t c) : InvP0 slot2 cs t := by
  refine ⟨hPW, hOK, ?_⟩
  intro s hs
  rw [h2] at hs
  obtain rfl := Option.some.inj hs
  exact ⟨le_refl _, fun c hc => (hOK c hc).2.2.2⟩

/-- Appending no commits preserves the run invariant. -/
theorem InvP0_append_nil {slot : SlotP0} {cs : List Commit} {t : Nat}
    (h : InvP0 slot cs t) : InvP0 slot (cs ++ []) t := by
  rw [List.append_nil]
  exact h

/-- `part_000`'s `processTabChange` preserves the run invariant. -/
theorem processTabChange_inv (st : StateP0) (cs : List Commit) (t : Nat) (tid : Int)
    (lk : Option Tab) (now : Nat) (ok : Bool)
    (hInv : InvP0 st.slot cs t) (ht : t ≤ now) :
    InvP0 (processTabChangeP0 st tid lk now ok).1.slot
      (cs ++ ((processTabChangeP0 st tid lk now ok).2).toList) now := by
  have hsave := savePO_inv st.slot st.ledger cs t now ok hInv ht
  unfold processTabChangeP0
  by_cases htid : tid = -1
  · rw [if_pos htid]
    exact InvP0_append_nil (InvP0_mono ht hInv)
  rw [if_neg htid]
  rcases lk with _ | tab
  · exact hsave
  obtain ⟨tu, ttl⟩ := tab
  rcases tu with _ | u
  · exact hsave
  by_cases hint : u.isChromeInternal = true
  · simp only [hint, if_pos rfl]
    exact hsave
  · simp only [hint, if_neg]
    exact InvP0_fresh _ rfl hsave.1 hsave.2.1

/-- `part_000`'s tab-removed listener preserves the run invariant. -/
theorem removedP0_inv (st : StateP0) (cs : List Commit) (t : Nat) (tid : Int)
    (now : Nat) (ok : Bool) (hInv : InvP0 st.slot cs t) (ht : t ≤ now) :
    InvP0 (removedP0 st tid now ok).1.slot
      (cs ++ ((removedP0 st tid now ok).2).toList) now := by
  unfold removedP0
  by_cases hg : st.slot.id = some tid
  · rw [if_pos hg]
    exact savePO_inv st.slot st.ledger cs t now ok hInv ht
  · rw [if_neg hg]
    simp only [Option.toList, List.append_nil]
    exact InvP0_mono ht hInv

/-- The slot after a `part_000` tick is the slot after the forced save. -/
theorem tickP0_slot (st : StateP0) (now : Nat) (ok : Bool) (token : Option String)
    (outcome : String → Bool) :
    (tickP0 st now ok token outcome).1.slot = (savePO st.slot st.ledger now ok).1 := by
  unfold tickP0
  dsimp only
  split <;> rfl

/-- The commit reported by a `part_000` tick is the forced save's commit. -/
theorem tickP0_commit (st : StateP0) (now : Nat) (ok : Bool) (token : Option String)
    (outcome : String → Bool) :
    (tickP0 st now ok token outcome).2.1 = (savePO st.slot st.ledger now ok).2.2 := by
  unfold tickP0
  dsimp only
  split <;> rfl

/-- Every `part_000` event handler preserves the run invariant, advancing
the bookkeeping time to the event's timestamp. -/
theorem stepP0_inv (st : StateP0) (cs : List Commit) (t : Nat) (e : EventP0)
    (hInv : InvP0 st.slot cs t) (ht : t ≤ eventTime e) :
    InvP0 (stepP0 st e).1.slot (cs ++ ((stepP0 st e).2).toList) (eventTime e) := by
  cases e with
  | activated tid lk n ok => exact processTabChange_inv st cs t tid lk n ok hInv ht
  | updated tid act comp lk n ok =>
      have hstep : stepP0 st (.updated tid act comp lk n ok)
          = if act && comp then processTabChangeP0 st tid lk n ok else (st, none) := rfl
      rw [hstep]
      by_cases hac : (act && comp) = true
      · rw [if_pos hac]
        exact processTabChange_inv st cs t tid lk n ok hInv ht
      · rw [if_neg hac]
        exact InvP0_append_nil (InvP0_mono ht hInv)
  | removed tid n ok => exact removedP0_inv st cs t tid n ok hInv ht
  | focusLost n ok => exact savePO_inv st.slot st.ledger cs t n ok hInv ht
  | focusGained q lk n ok =>
      rcases q with _ | tid
      · have hstep : stepP0 st (.focusGained none lk n ok) = (st, none) := rfl
        rw [hstep]
        exact InvP0_append_nil (InvP0_mono ht hInv)
      · exact processTabChange_inv st cs t tid lk n ok hInv ht
  | tick n ok token outcome =>
      show InvP0 (tickP0 st n ok token outcome).1.slot
        (cs ++ ((tickP0 st n ok token outcome).2.1).toList) n
      rw [tickP0_slot, tickP0_commit]
      exact savePO_inv st.slot st.ledger cs t n ok hInv ht

/-- Running any monotonically timestamped event list preserves the run
invariant up to some final bookkeeping time. -/
theorem runP0Aux_inv (es : List EventP0) :
    ∀ (st : StateP0) (acc : List Commit) (t : Nat),
      InvP0 st.slot acc t → timesMono t es →
      ∃ t2, InvP0 (runP0Aux st acc es).1.slot (runP0Aux st acc es).2 t2 := by
  induction es with
  | nil =>
      intro st acc t h _
      exact ⟨t, h⟩
  | cons e es ih =>
      intro st acc t h hm
      exact ih (stepP0 st e).1 (acc ++ ((stepP0 st e).2).toList) (eventTime e)
        (stepP0_inv st acc t e h hm.1) hm.2

/-- Both `getKey`/`totalTime` facts about a `background.js`-style commit:
the key just committed holds the latest title and the incremented total. -/
theorem getKey_commitBG (L : Ledger) (k : String) (t : Option String) (d : Int) :
    getKey (commitBG L k t d) k
      = some ⟨t, (match getKey L k with | some e => e.totalTime | none => 0) + d⟩ := by
  unfold commitBG
  exact getKey_setKey_self L k _

/-- The key just committed by the `part_000` commit holds the incremented
total, and the pre-existing title when the entry already existed. -/
theorem getKey_commitP0 (L : Ledger) (k : String) (t : Option String) (d : Int) :
    getKey (commitP0 L k t d) k
      = some ⟨(match getKey L k with | some e => e.title | none => t),
              (match getKey L k with | some e => e.totalTime | none => 0) + d⟩ := by
  unfold commitP0
  rcases h : getKey L k with _ | e
  · exact getKey_setKey_self L k _
  · exact getKey_setKey_self L k _

/-- `background.js`'s save with a looked-up internal-scheme tab is a no-op. -/
theorem saveBG_internal_noop (stB : StateBG) (nB : Nat) (tabB : Tab) (uB : Url) (okB : Bool)
    (hintB : uB.isChromeInternal = true) (htab : tabB.url = some uB) :
    saveBG stB nB (some tabB) okB = (stB, none) := by
  have hled : saveBGLedger stB.lastTabId stB.startTime stB.ledger nB (some tabB) okB
      = (stB.ledger, none) := by
    rcases hI : stB.lastTabId with _ | i
    · rfl
    rcases hS : stB.startTime with _ | s
    · rfl
    unfold saveBGLedger
    dsimp only
    split
    · rfl
    split
    · rfl
    rw [htab]
    dsimp only
    rw [if_pos hintB]
  unfold saveBG
  rw [hled]

/-- `background.js`'s save touches neither timing variable. -/
theorem saveBG_vars (st : StateBG) (now : Nat) (lk : Option Tab) (ok : Bool) :
    (saveBG st now lk ok).1.lastTabId = st.lastTabId ∧
      (saveBG st now lk ok).1.startTime = st.startTime :=
  ⟨rfl, rfl⟩

/-- Each `background.js` handler preserves the both-or-neither shape of the
two timing variables. -/
theorem wfSlot_stepBG (st : StateBG) (e : EventBG)
    (h : st.lastTabId = none ↔ st.startTime = none) :
    ((stepBG st e).1.lastTabId = none ↔ (stepBG st e).1.startTime = none) := by
  cases e with
  | activated tid lk n ok =>
      simp [stepBG, handleTabChangeBG]
  | updated ch tid lk n ok =>
      rw [show stepBG st (.updated ch tid lk n ok)
          = if ch then handleTabChangeBG st tid lk n ok else (st, none) from rfl]
      by_cases hch : ch = true
      · rw [if_pos hch]
        simp [handleTabChangeBG]
      · rw [if_neg hch]
        exact h
  | removed tid lk n ok =>
      rw [show stepBG st (.removed tid lk n ok) = handleTabRemovedBG st tid lk n ok from rfl]
      unfold handleTabRemovedBG
      by_cases hg : st.lastTabId = some tid
      · rw [if_pos hg]
        simp
      · rw [if_neg hg]
        exact h
  | tick n lk ok token outcome =>
      have hv : ((stepBG st (.tick n lk ok token outcome)).1.lastTabId = st.lastTabId
          ∧ (stepBG st (.tick n lk ok token outcome)).1.startTime = st.startTime) := by
        rw [show stepBG st (.tick n lk ok token outcome)
            = ((tickBG st n lk ok token outcome).1, (tickBG st n lk ok token outcome).2.1) from rfl]
        unfold tickBG
        dsimp only
        split <;> exact ⟨rfl, rfl⟩
      rw [hv.1, hv.2]
      exact h

/-- Running any `background.js` event list preserves the both-or-neither
shape of the two timing variables. -/
theorem wfSlot_runBGAux (es : List EventBG) :
    ∀ (st : StateBG) (acc : List Commit),
      (st.lastTabId = none ↔ st.startTime = none) →
      ((runBGAux st acc es).1.lastTabId = none ↔ (runBGAux st acc es).1.startTime = none) := by
  induction es with
  | nil =>
      intro st acc h
      exact h
  | cons e es ih =>
      intro st acc h
      exact ih (stepBG st e).1 (acc ++ ((stepBG st e).2).toList) (wfSlot_stepBG st e h)

/-- `part_000`'s save preserves the both-or-neither shape of the slot's id
and start-timestamp fields. -/
theorem wfSlot_savePO (slot : SlotP0) (L : Ledger) (now : Nat) (ok : Bool)
    (h : slot.id = none ↔ slot.startTime = none) :
    ((savePO slot L now ok).1.id = none ↔ (savePO slot L now ok).1.startTime = none) := by
  rcases savePO_slot_cases slot L now ok with hc | hc <;> rw [hc]
  · exact h
  · simp [emptySlot]

/-- `part_000`'s `processTabChange` preserves the both-or-neither shape of
the slot's id and start-timestamp fields. -/
theorem wfSlot_ptc (st : StateP0) (tid : Int) (lk : Option Tab) (now : Nat) (ok : Bool)
    (h : st.slot.id = none ↔ st.slot.startTime = none) :
    ((processTabChangeP0 st tid lk now ok).1.slot.id = none ↔
      (processTabChangeP0 st tid lk now ok).1.slot.startTime = none) := by
  unfold processTabChangeP0
  by_cases htid : tid = -1
  · rw [if_pos htid]
    exact h
  rw [if_neg htid]
  rcases lk with _ | tab
  · exact wfSlot_savePO st.slot st.ledger now ok h
  obtain ⟨tu, ttl⟩ := tab
  rcases tu with _ | u
  · exact wfSlot_savePO st.slot st.ledger now ok h
  dsimp only
  by_cases hint : u.isChromeInternal = true
  · rw [if_pos hint]
    exact wfSlot_savePO st.slot st.ledger now ok h
  · rw [if_neg hint]
    simp

/-- Each `part_000` handler preserves the both-or-neither shape of the
slot's id and start-timestamp fields. -/
theorem wfSlot_stepP0 (st : StateP0) (e : EventP0)
    (h : st.slot.id = none ↔ st.slot.startTime = none) :
    ((stepP0 st e).1.slot.id = none ↔ (stepP0 st e).1.slot.startTime = none) := by
  cases e with
  | activated tid lk n ok => exact wfSlot_ptc st tid lk n ok h
  | updated tid act comp lk n ok =>
      rw [show stepP0 st (.updated tid act comp lk n ok)
          = if act && comp then processTabChangeP0 st tid lk n ok else (st, none) from rfl]
      by_cases hac : (act && comp) = true
      · rw [if_pos hac]
        exact wfSlot_ptc st tid lk n ok h
      · rw [if_neg hac]
        exact h
  | removed tid n ok =>
      rw [show stepP0 st (.removed tid n ok) = removedP0 st tid n ok from rfl]
      unfold removedP0
      by_cases hg : st.slot.id = some tid
      · rw [if_pos hg]
        exact wfSlot_savePO st.slot st.ledger n ok h
      · rw [if_neg hg]
        exact h
  | focusLost n ok => exact wfSlot_savePO st.slot st.ledger n ok h
  | focusGained q lk n ok =>
      rcases q with _ | tid
      · exact h
      · exact wfSlot_ptc st tid lk n ok h
  | tick n ok token outcome =>
      have hs : (stepP0 st (.tick n ok token outcome)).1.slot
          = (savePO st.slot st.ledger n ok).1 := tickP0_slot st n ok token outcome
      rw [hs]
      exact wfSlot_savePO st.slot st.ledger n ok h

/-- Running any `part_000` event list preserves the both-or-neither shape of
the slot's id and start-timestamp fields. -/
theorem wfSlot_runP0Aux (es : List EventP0) :
    ∀ (st : StateP0) (acc : List Commit),
      (st.slot.id = none ↔ st.slot.startTime = none) →
      ((runP0Aux st acc es).1.slot.id = none ↔ (runP0Aux st acc es).1.slot.startTime = none) := by
  induction es with
  | nil =>
      intro st acc h
      exact h
  | cons e es ih =>
      intro st acc h
      exact ih (stepP0 st e).1 (acc ++ ((stepP0 st e).2).toList) (wfSlot_stepP0 st e h)

/-! ## Claim C1 — partial-sync correctness of a scheduler tick -/

/-- Claim C1, counterexample: the `extension/background.js` tick clears the
whole ledger unconditionally.  With ledger `{A: 10s, B: 20s}`, dispatch for
`A` succeeding and `B` failing (the code never consults the outcomes), the
post-tick ledger is `{}`, not `{B: 20s}`: the failed entry `B` is dropped. -/
theorem tickClearsFailedEntries :
    (tickBG ⟨none, none, exLedger⟩ 1000 none true (some "tok") (fun k => k == "A")).1.ledger = []
    ∧ getKey (tickBG ⟨none, none, exLedger⟩ 1000 none true (some "tok")
        (fun k => k == "A")).1.ledger "B" = none
    ∧ getKey exLedger "B" = some ⟨some "b", 20⟩ := by
  refine ⟨by decide, by decide, by decide⟩

/-- Claim C1 (amended): for the `part_000` scheduler tick, started with a
truthy session token and an empty timing slot, exactly the keys whose
dispatch succeeded are removed from the ledger, and every key whose dispatch
failed still reads exactly as before the tick; the
`extension/background.js` revision instead clears the whole ledger. -/
theorem tickPruneOnlySynced (L : Ledger) (now : Nat) (ok : Bool) (tok : String)
    (outcome : String → Bool) (htok : tok ≠ "") (k : String) :
    getKey (tickP0 ⟨emptySlot, L⟩ now ok (some tok) outcome).1.ledger k
      = if outcome k then none else getKey L k := by
  have htt : truthyToken (some tok) = true := by simp [truthyToken, htok]
  unfold tickP0
  rw [savePO_empty L now ok]
  dsimp only
  rw [htt]
  by_cases hL : L.isEmpty = true
  · rw [if_pos (Or.inr hL)]
    have hnil : L = [] := by simpa using hL
    subst hnil
    cases hout : outcome k <;> simp [getKey, hout]
  · rw [if_neg (by simp [hL])]
    exact getKey_filter L outcome k

/-- Witness for the amended C1 theorem on the `{A: 10s, B: 20s}` ledger with
`A` succeeding and `B` failing: `B` still reads as before the tick. -/
theorem tickPruneOnlySyncedWitness :
    ("tok" : String) ≠ "" ∧
      getKey (tickP0 ⟨emptySlot, exLedger⟩ 0 true (some "tok")
          (fun k => k == "A")).1.ledger "B"
        = if ((fun k : String => k == "A") "B") then none else getKey exLedger "B" :=
  ⟨by decide, tickPruneOnlySynced exLedger 0 true "tok" (fun k => k == "A") (by decide) "B"⟩

/-! ## Claim C2 — no double counting -/

/-- Claim C2, counterexample: in `extension/background.js` the forced save
of the alarm tick does not clear `startTime`, so after activating tab 1 at
second 1, a tick at second 11 and a switch to tab 2 at second 21, the two
commits cover overlapping intervals `[1000, 11000]` and `[1000, 21000]` and
their durations sum to 30 s although the tab was the timed one for only
20 s — the seconds from 1000 ms to 11000 ms are counted in both commits. -/
theorem doubleCountOnTick :
    (runBG exEventsBG).2 =
      [⟨"example.com", some "Ex", 10, 1000, 11000⟩,
       ⟨"example.com", some "Ex", 20, 1000, 21000⟩]
    ∧ ¬ List.Pairwise (fun a b : Commit => a.endMs ≤ b.startMs) (runBG exEventsBG).2
    ∧ ((runBG exEventsBG).2.map Commit.duration).sum = 30 := by
  have h1 : (runBG exEventsBG).2 =
      [⟨"example.com", some "Ex", 10, 1000, 11000⟩,
       ⟨"example.com", some "Ex", 20, 1000, 21000⟩] := by decide
  refine ⟨h1, ?_, by decide⟩
  rw [h1]
  intro hp
  have h2 := (List.pairwise_cons.mp hp).1 ⟨"example.com", some "Ex", 20, 1000, 21000⟩
    (by simp)
  simp at h2

/-- Claim C2 (amended): for the `part_000` revision (whose save always
clears the slot), over any event sequence with monotone timestamps the
committed intervals are pairwise disjoint — each real-world instant between
a slot's start and its commit belongs to at most one commit — and every
commit's duration is exactly `Math.round` of its own interval's length and
positive, so for every site the sum of committed durations equals the sum of
the rounded lengths of the disjoint intervals during which that site's
context was timed. -/
theorem noDoubleCounting (es : List EventP0) (h : timesMono 0 es) :
    List.Pairwise (fun a b => a.endMs ≤ b.startMs) (runP0 es).2 ∧
    (∀ c ∈ (runP0 es).2,
        c.startMs ≤ c.endMs ∧ c.duration = msToSec ((c.endMs : Int) - (c.startMs : Int)) ∧
          0 < c.duration) ∧
    ∀ site : String,
      (((runP0 es).2.filter (fun c => c.site == site)).map Commit.duration).sum =
        (((runP0 es).2.filter (fun c => c.site == site)).map
          (fun c => msToSec ((c.endMs : Int) - (c.startMs : Int)))).sum := by
  have h0 : InvP0 initP0.slot [] 0 := by
    refine ⟨List.Pairwise.nil, by simp, ?_⟩
    intro s hs
    simp [initP0, emptySlot] at hs
  obtain ⟨t2, hPW, hOK, -⟩ := runP0Aux_inv es initP0 [] 0 h0 h
  refine ⟨hPW, fun c hc => ⟨(hOK c hc).1, (hOK c hc).2.1, (hOK c hc).2.2.1⟩, ?_⟩
  intro site
  exact congrArg List.sum (List.map_congr_left
    (fun c hc => (hOK c (List.mem_of_mem_filter hc)).2.1))

/-- Witness for the amended C2 theorem on a concrete two-event trace. -/
theorem noDoubleCountingWitness :
    timesMono 0 wEventsP0 ∧
      List.Pairwise (fun a b => a.endMs ≤ b.startMs) (runP0 wEventsP0).2 :=
  ⟨⟨by decide, by decide, trivial⟩,
   (noDoubleCounting wEventsP0 ⟨by decide, by decide, trivial⟩).1⟩

/-! ## Claim C3 — no sync without session -/

/-- Claim C3, counterexample: a `part_000` tick with no token present still
runs the forced save first, so with tab 1 open on example.com for 10 s and
an empty ledger, the post-tick ledger gains `{example.com: 10s}` — it is not
left completely unmodified (though zero requests are issued). -/
theorem tickWithoutTokenCommits :
    (tickP0 ⟨slotEx, []⟩ 11000 true none (fun _ => false)).1.ledger
      = [("example.com", ⟨some "T", 10⟩)]
    ∧ (tickP0 ⟨slotEx, []⟩ 11000 true none (fun _ => false)).1.ledger ≠ []
    ∧ (tickP0 ⟨slotEx, []⟩ 11000 true none (fun _ => false)).2.2 = 0 := by
  refine ⟨by decide, by decide, by decide⟩

/-- Claim C3 (amended): a `part_000` tick with no token issues zero network
requests and performs no sync-driven removal or change — the post-tick state
is exactly the state after the tick's initial forced commit of the open
slot — and when the slot is empty the ledger (and the whole state) is
completely unmodified. -/
theorem tickNoToken (st : StateP0) (L : Ledger) (now : Nat) (ok : Bool)
    (outcome : String → Bool) :
    (tickP0 st now ok none outcome).2.2 = 0
    ∧ (tickP0 st now ok none outcome).1
        = ⟨(savePO st.slot st.ledger now ok).1, (savePO st.slot st.ledger now ok).2.1⟩
    ∧ (tickP0 ⟨emptySlot, L⟩ now ok none outcome).1 = ⟨emptySlot, L⟩ :=
  ⟨rfl, rfl, rfl⟩

/-! ## Claim C4 — commit re-resolution -/

/-- Claim C4, counterexample: `part_000`'s commit performs no context lookup
at all.  Here tab 1 is being removed — its identifier can no longer
resolve — yet the commit succeeds using the URL and title cached at
activation time, so the ledger changes instead of the commit being
discarded. -/
theorem commitUsesCachedUrl :
    removedP0 ⟨slotEx, []⟩ 1 11000 true
      = (⟨emptySlot, [("example.com", ⟨some "T", 10⟩)]⟩,
         some ⟨"example.com", some "T", 10, 1000, 11000⟩)
    ∧ (removedP0 ⟨slotEx, []⟩ 1 11000 true).1.ledger ≠ [] := by
  refine ⟨by decide, by decide⟩

/-- Claim C4 (amended): in the `extension/background.js` (and `part_001`)
revisions the commit re-queries the context by its identifier at commit
time: when the identifier no longer resolves the commit is discarded and the
ledger is unchanged, and when it resolves the site key and title written are
taken from the freshly looked-up tab; the `part_000` revision instead
commits from the snapshot cached at activation and never queries. -/
theorem commitRequery (i : Int) (s now : Nat) (L : Ledger) (tab : Tab) (u : Url)
    (h : String) (ok : Bool) (hi : i ≠ 0) (hs : s ≠ 0)
    (hd : 0 < msToSec ((now : Int) - (s : Int)))
    (hurl : tab.url = some u) (hint : u.isChromeInternal = false)
    (hh : u.hostname = some h) :
    saveBG ⟨some i, some s, L⟩ now none ok = (⟨some i, some s, L⟩, none)
    ∧ saveBG ⟨some i, some s, L⟩ now (some tab) true
        = (⟨some i, some s, commitBG L h tab.title (msToSec ((now : Int) - (s : Int)))⟩,
           some ⟨h, tab.title, msToSec ((now : Int) - (s : Int)), s, now⟩) := by
  have hd2 : ¬ msToSec ((now : Int) - (s : Int)) ≤ 0 := by omega
  constructor
  · unfold saveBG saveBGLedger
    dsimp only
    rw [if_neg (by simp [hi, hs])]
    split <;> rfl
  · unfold saveBG saveBGLedger
    dsimp only
    rw [if_neg (by simp [hi, hs]), if_neg hd2, hurl]
    dsimp only
    rw [if_neg (by simp [hint]), hh]
    rfl

/-- Witness for the amended C4 theorem: tab 1 timed since second 1, commit
at second 11; with no lookup result the ledger is untouched, with a fresh
lookup the committed entry carries the looked-up hostname and title. -/
theorem commitRequeryWitness :
    ((1 : Int) ≠ 0 ∧ (1000 : Nat) ≠ 0 ∧ 0 < msToSec ((11000 : Int) - (1000 : Int))
      ∧ tabEx.url = some ⟨false, some "example.com"⟩
      ∧ (⟨false, some "example.com"⟩ : Url).isChromeInternal = false
      ∧ (⟨false, some "example.com"⟩ : Url).hostname = some "example.com")
    ∧ saveBG ⟨some 1, some 1000, []⟩ 11000 none true = (⟨some 1, some 1000, []⟩, none) :=
  ⟨⟨by decide, by decide, by decide, by decide, by decide, by decide⟩,
   (commitRequery 1 1000 11000 [] tabEx ⟨false, some "example.com"⟩ "example.com" true
      (by decide) (by decide) (by decide) (by decide) (by decide) (by decide)).1⟩

/-! ## Claim C5 — slot cleared regardless of commit failure -/

/-- Claim C5, counterexample: `extension/background.js`'s
`saveTimeForLastTab` never clears the timing variables itself: after a
commit attempt on a non-empty slot (here one whose storage write fails, and
one that succeeds) both `lastTabId` and `startTime` are still set. -/
theorem saveLeavesSlotSet :
    (saveBG ⟨some 1, some 1000, []⟩ 11000 (some tabEx) false).1.lastTabId = some 1
    ∧ (saveBG ⟨some 1, some 1000, []⟩ 11000 (some tabEx) false).1.startTime = some 1000
    ∧ (saveBG ⟨some 1, some 1000, []⟩ 11000 (some tabEx) true).1.lastTabId = some 1 :=
  ⟨rfl, rfl, rfl⟩

/-- Claim C5 (amended): in the `part_000` revision, every commit attempt on
a truthily non-empty slot leaves the in-memory slot empty, whatever `now`,
the cached URL (including an unparsable or absent one) and the storage
outcome are — a failed commit may lose the duration but never leaves a
stuck slot; the `extension/background.js` commit function never clears the
slot itself. -/
theorem slotClearedOnCommit (i : Int) (url : Option Url) (title : Option String)
    (s : Nat) (L : Ledger) (now : Nat) (ok : Bool) (hi : i ≠ 0) (hs : s ≠ 0) :
    (savePO ⟨some i, url, title, some s⟩ L now ok).1 = emptySlot :=
  savePO_clears i url title s L now ok hi hs

/-- Witness for the amended C5 theorem: a slot with a failing storage write
and no parsable URL still comes back empty. -/
theorem slotClearedOnCommitWitness :
    ((1 : Int) ≠ 0 ∧ (1000 : Nat) ≠ 0)
    ∧ (savePO ⟨some 1, none, none, some 1000⟩ [] 50000 false).1 = emptySlot :=
  ⟨⟨by decide, by decide⟩,
   slotClearedOnCommit 1 none none 1000 [] 50000 false (by decide) (by decide)⟩

/-! ## Claim C6 — context-removed guard -/

/-- Claim C6, counterexample: the second `part_001` revision's tab-removed
listener calls the save with the removed tab's id unconditionally.  While
tab 1 is the timed one, removing tab 2 (whose lookup still resolves to
`removed.example`) commits the slot's 10 s under the REMOVED tab's site and
leaves the timing variables running — the ledger is not left unchanged. -/
theorem removedUnrelatedCommits :
    onRemovedP1 ⟨some 1, some 1000, []⟩ 2 11000
        (some ⟨some ⟨false, some "removed.example"⟩, some "R"⟩) true
      = ⟨some 1, some 1000, [("removed.example", ⟨some "R", 10⟩)]⟩
    ∧ (onRemovedP1 ⟨some 1, some 1000, []⟩ 2 11000
        (some ⟨some ⟨false, some "removed.example"⟩, some "R"⟩) true).ledger ≠ [] := by
  refine ⟨by decide, by decide⟩

/-- Claim C6 (amended): in the `part_000` and `extension/background.js`
revisions the tab-removed listener is guarded by id equality, so a removal
whose id differs from the currently-timed context's id leaves the slot and
the ledger (the whole state) unchanged and performs no commit; the second
`part_001` revision invokes the commit with the removed id unconditionally. -/
theorem removedGuard (st : StateP0) (stB : StateBG) (tid tidB : Int) (lk : Option Tab)
    (now nowB : Nat) (ok okB : Bool)
    (h1 : st.slot.id ≠ some tid) (h2 : stB.lastTabId ≠ some tidB) :
    removedP0 st tid now ok = (st, none)
    ∧ handleTabRemovedBG stB tidB lk nowB okB = (stB, none) := by
  constructor
  · unfold removedP0
    rw [if_neg h1]
  · unfold handleTabRemovedBG
    rw [if_neg h2]

/-- Witness for the amended C6 theorem: removing tab 2 while tab 1 is timed
changes nothing in either revision. -/
theorem removedGuardWitness :
    ((⟨slotEx, []⟩ : StateP0).slot.id ≠ some 2
      ∧ (⟨some 1, some 1000, []⟩ : StateBG).lastTabId ≠ some 2)
    ∧ removedP0 ⟨slotEx, []⟩ 2 11000 true = (⟨slotEx, []⟩, none) :=
  ⟨⟨by decide, by decide⟩,
   (removedGuard ⟨slotEx, []⟩ ⟨some 1, some 1000, []⟩ 2 2 none 11000 11000 true true
      (by decide) (by decide)).1⟩

/-! ## Claim C7 — TimingSlot well-formedness invariant -/

/-- Claim C7: after processing any prefix of an event sequence from the
empty initial state, the single slot refers to zero or one context (it is
one record holding at most one context identifier, in both revisions), and
its context-identifier and start-timestamp fields are set together: one is
null exactly when the other is.  Proved for the `part_000` tracker and the
`extension/background.js` tracker. -/
theorem slotWellFormed :
    (∀ es : List EventP0,
      ((runP0 es).1.slot.id = none ↔ (runP0 es).1.slot.startTime = none))
    ∧ (∀ es : List EventBG,
      ((runBG es).1.lastTabId = none ↔ (runBG es).1.startTime = none)) :=
  ⟨fun es => wfSlot_runP0Aux es initP0 [] (by simp [initP0, emptySlot]),
   fun es => wfSlot_runBGAux es initBG [] (by simp [initBG])⟩

/-! ## Claim C8 — internal pages never tracked -/

/-- Claim C8, counterexample: `extension/background.js`'s `handleTabChange`
starts timing the activated tab without ever inspecting its URL, so an
activation of a tab showing a `chrome://` page produces a non-empty slot
(`lastTabId = 7`, `startTime` set). -/
theorem internalActivationSetsSlot :
    (handleTabChangeBG initBG 7 none 1000 true).1 = ⟨some 7, some 1000, []⟩
    ∧ (handleTabChangeBG initBG 7 none 1000 true).1.lastTabId ≠ none := by
  refine ⟨by decide, by decide⟩

/-- Claim C8 (amended): in the `part_000` revision, an activation whose
looked-up URL is browser-internal never produces a non-empty slot (starting
from an empty or truthily well-formed slot); in the
`extension/background.js` revision the activation handler sets the slot
without inspecting the URL, but its commit path never writes a ledger entry
when the looked-up URL is internal, so no duration is ever committed under
an internal page. -/
theorem internalNeverTracked (st : StateP0) (tid : Int) (u : Url) (ttl : Option String)
    (now : Nat) (ok : Bool) (stB : StateBG) (tabB : Tab) (uB : Url) (nB : Nat) (okB : Bool)
    (htid : tid ≠ -1)
    (hwf : st.slot = emptySlot ∨
      ∃ i s, st.slot.id = some i ∧ i ≠ 0 ∧ st.slot.startTime = some s ∧ s ≠ 0)
    (hint : u.isChromeInternal = true)
    (hintB : uB.isChromeInternal = true) (htab : tabB.url = some uB) :
    (processTabChangeP0 st tid (some ⟨some u, ttl⟩) now ok).1.slot = emptySlot
    ∧ saveBG stB nB (some tabB) okB = (stB, none) := by
  refine ⟨?_, saveBG_internal_noop stB nB tabB uB okB hintB htab⟩
  unfold processTabChangeP0
  rw [if_neg htid]
  dsimp only
  rw [if_pos hint]
  exact savePO_resets st.slot st.ledger now ok hwf

/-- Witness for the amended C8 theorem: activating a `chrome://extensions`
tab from the initial state leaves the `part_000` slot empty, and the
`background.js` commit ignores an internal looked-up tab. -/
theorem internalNeverTrackedWitness :
    ((7 : Int) ≠ -1 ∧ (⟨true, some "extensions"⟩ : Url).isChromeInternal = true)
    ∧ (processTabChangeP0 initP0 7 (some ⟨some ⟨true, some "extensions"⟩, some "Ext"⟩)
        1000 true).1.slot = emptySlot :=
  ⟨⟨by decide, by decide⟩,
   (internalNeverTracked initP0 7 ⟨true, some "extensions"⟩ (some "Ext") 1000 true
      initBG ⟨some ⟨true, some "x"⟩, none⟩ ⟨true, some "x"⟩ 5 true
      (by decide) (Or.inl rfl) (by decide) (by decide) (by decide)).1⟩

/-! ## Claim C9 — accumulation -/

/-- Claim C9, counterexample: the `part_000` commit writes the title only
when it creates the entry, so committing 5 s with title "First" and then 7 s
with title "Latest" for the same site yields 12 accumulated seconds but the
FIRST title, not the most recently observed one. -/
theorem titleNotOverwritten :
    commitP0 (commitP0 [] "site.example" (some "First") 5) "site.example" (some "Latest") 7
      = [("site.example", ⟨some "First", 12⟩)]
    ∧ getKey (commitP0 (commitP0 [] "site.example" (some "First") 5) "site.example"
        (some "Latest") 7) "site.example" ≠ some ⟨some "Latest", 12⟩ := by
  refine ⟨by decide, by decide⟩

/-- Claim C9 (amended): committing `d1` then `d2` for the same site key
accumulates `base + d1 + d2` (creating the entry when absent) in both
revisions; the `extension/background.js` commit overwrites the title with
the latest observed one, while the `part_000` commit keeps the title under
which the entry was created. -/
theorem accumulation (L : Ledger) (k : String) (t1 t2 : Option String) (d1 d2 : Int) :
    getKey (commitBG (commitBG L k t1 d1) k t2 d2) k
      = some ⟨t2, (match getKey L k with | some e => e.totalTime | none => 0) + d1 + d2⟩
    ∧ getKey (commitP0 (commitP0 L k t1 d1) k t2 d2) k
      = some ⟨(match getKey L k with | some e => e.title | none => t1),
              (match getKey L k with | some e => e.totalTime | none => 0) + d1 + d2⟩ := by
  constructor
  · rw [getKey_commitBG, getKey_commitBG]
  · rw [getKey_commitP0, getKey_commitP0]

/-! ## Claim C10 — auth error normalization -/

/-- Claim C10: `loginUser` is fully characterized by four equations: a
transport failure and a JSON-parse failure both return the normalized
connection-error result, a non-2xx response returns `{error: data.error}`,
and only a 2xx response with a parsed body writes the session (token and
username) and returns success.  In every non-success case the session value
returned is exactly the input session, and no case throws: every outcome is
one of these result objects. -/
theorem authErrorNormalization (sess : Session) (u p : String) (body : LoginBody) :
    loginUser sess u p .netError
      = (sess, .failure (some "Could not connect to the server."))
    ∧ (∀ ok : Bool, loginUser sess u p (.response ok none)
        = (sess, .failure (some "Could not connect to the server.")))
    ∧ loginUser sess u p (.response false (some body)) = (sess, .failure body.error)
    ∧ loginUser sess u p (.response true (some body))
        = (⟨body.token, some u⟩, .success) := by
  refine ⟨rfl, fun ok => ?_, rfl, rfl⟩
  cases ok <;> rfl

end BW
